import Mathlib

/-
Shallow embedding of the CardSightAI Node SDK client core
(src/src/client.ts together with the later client revision embedded in
src/unnamed/part_000, and src/src/utils.ts).

JavaScript-specific behaviour is modelled explicitly:
- strings, numbers and JSON values carry JS truthiness (empty string,
  zero, null are falsy; objects and arrays are truthy);
- the header container is case-insensitive in its names, as the WHATWG
  Headers class is;
- object literal spread merges by exact key, later entries overriding;
- the WeakMap registry of timeout-cleanup closures is modelled as an
  association list keyed by the per-request options-object identity
  (a Nat), and each armed timer records how many times its cleanup
  closure (clearTimeout) has been invoked.
-/

namespace CardSight

/-- JSON values as produced by a successful response.json() call. -/
inductive JsonVal where
  | null : JsonVal
  | bool (b : Bool) : JsonVal
  | num (n : Int) : JsonVal
  | str (s : String) : JsonVal
  | arr (elems : List JsonVal) : JsonVal
  | obj (fields : List (String × JsonVal)) : JsonVal

/-- JS truthiness of a JSON value: null, false, 0 and the empty string are falsy; arrays and objects are truthy. -/
def vtruthy : JsonVal → Bool
  | .null => false
  | .bool b => b
  | .num n => n != 0
  | .str s => s != ""
  | .arr _ => true
  | .obj _ => true

/-- Truthiness of an optional JSON value, where none plays the role of undefined. -/
def jtruthy : Option JsonVal → Bool
  | none => false
  | some v => vtruthy v

/-- Optional-chained property access, as in responseData?.message: absent on every non-object value. -/
def jfield : JsonVal → String → Option JsonVal
  | .obj fields, name => (fields.find? (fun p => p.1 == name)).map (fun p => p.2)
  | _, _ => none

mutual

/-- JS string conversion of a JSON value, as the Error constructor applies to a non-string message. -/
def jstr : JsonVal → String
  | .null => "null"
  | .bool true => "true"
  | .bool false => "false"
  | .num n => toString n
  | .str s => s
  | .arr elems => String.intercalate "," (jstrList elems)
  | .obj _ => "[object Object]"

/-- Element-wise string conversion inside an array, where null prints as the empty string. -/
def jstrList : List JsonVal → List String
  | [] => []
  | .null :: rest => "" :: jstrList rest
  | v :: rest => jstr v :: jstrList rest

end

/-- String conversion of an optional JSON value; only applied at truthy (hence present) values. -/
def jstrOf (o : Option JsonVal) : String := jstr (o.getD .null)

/-- Header lists: ordered name-value pairs as held by a WHATWG Headers object. -/
abbrev HList := List (String × String)

/-- ASCII lowering of one character, as header-name byte-lowercasing does. -/
def lowerChar (c : Char) : Char :=
  if 65 ≤ c.toNat ∧ c.toNat ≤ 90 then Char.ofNat (c.toNat + 32) else c

/-- Case normalisation of a header name. -/
def hnorm (s : String) : String := String.mk (s.data.map lowerChar)

/-- Headers.has: case-insensitive presence of a header name. -/
def hhas (hs : HList) (name : String) : Bool :=
  hs.any (fun p => hnorm p.1 == hnorm name)

/-- Headers.get (first entry): case-insensitive lookup of a header value. -/
def hget (hs : HList) (name : String) : Option String :=
  (hs.find? (fun p => hnorm p.1 == hnorm name)).map (fun p => p.2)

/-- Headers.set: replace the first case-insensitive match and drop the others, else append. -/
def hset : HList → String → String → HList
  | [], n, v => [(n, v)]
  | p :: rest, n, v =>
    if hnorm p.1 = hnorm n then
      (p.1, v) :: rest.filter (fun q => hnorm q.1 != hnorm n)
    else
      p :: hset rest n v

/-- Object-literal key update: overwrite the value at an exact key, else append the pair. -/
def rset (l : HList) (k v : String) : HList :=
  if l.any (fun p => p.1 == k) then
    l.map (fun p => if p.1 == k then (p.1, v) else p)
  else
    l ++ [(k, v)]

/-- Object spread: fold the extra entries over the base object, later keys overriding. -/
def objSpread (base extra : HList) : HList :=
  extra.foldl (fun acc p => rset acc p.1 p.2) base

/-- JS-truthiness of an optional string, where none plays the role of undefined. -/
def truthyStr : Option String → Bool
  | none => false
  | some s => s != ""

/-- The JS expression a or-else b on optional strings: a when truthy, otherwise b verbatim. -/
def jsOrStr (a b : Option String) : Option String :=
  if truthyStr a then a else b

/-- The JS expression a or-else d on an optional number, where 0 is falsy and replaced by the default. -/
def jsOrNat (a : Option Nat) (d : Nat) : Nat :=
  match a with
  | some n => if n != 0 then n else d
  | none => d

/-- CardSightAIConfig from client.ts: every field optional. -/
structure CardSightAIConfig where
  apiKey : Option String := none
  baseUrl : Option String := none
  timeout : Option Nat := none
  headers : Option HList := none
deriving DecidableEq

/-- The Required configuration held by a constructed client. -/
structure ResolvedConfig where
  apiKey : String
  baseUrl : String
  timeout : Nat
  headers : HList
deriving DecidableEq

/-- Snapshot of request metadata attached to a thrown error. -/
structure ReqMeta where
  url : String
  method : String
  headers : HList
deriving DecidableEq

/-- CardSightAIError from client.ts: message, optional status, optional parsed body, optional request snapshot; the name field distinguishes the AuthenticationError subclass. -/
structure CardSightAIError where
  name : String
  message : String
  status : Option Nat
  response : Option JsonVal
  request : Option ReqMeta

/-- The AuthenticationError raised when no API key is resolvable. -/
def authenticationError : CardSightAIError :=
  { name := "AuthenticationError"
    message := "API key is required. Set it via init() or CARDSIGHTAI_API_KEY environment variable"
    status := none
    response := none
    request := none }

/-- A constructed client: resolved configuration plus the base headers handed to createClient. -/
structure ClientR where
  config : ResolvedConfig
  baseHeaders : HList
deriving DecidableEq

/-- Base headers of src-src-client.ts line 87: auth key and default content type first, then the caller extras spread over them. -/
def mkBaseHeaders (apiKey : String) (extra : HList) : HList :=
  objSpread [("X-API-Key", apiKey), ("Content-Type", "application/json")] extra

/-- Base headers of the client revision in part_000 line 451: auth key first, then the caller extras spread over it. -/
def mkBaseHeadersV2 (apiKey : String) (extra : HList) : HList :=
  objSpread [("X-API-Key", apiKey)] extra

/-- Credential resolution: the explicit config value or-else the CARDSIGHTAI_API_KEY environment value. -/
def resolveApiKey (explicit envVar : Option String) : Option String :=
  jsOrStr explicit envVar

/-- The CardSightAI constructor: resolve the key, fail with AuthenticationError when it is falsy, else resolve defaults and build the base headers. -/
def mkClient (cfg : Option CardSightAIConfig) (envVar : Option String) :
    Except CardSightAIError ClientR :=
  let apiKey := resolveApiKey (cfg.bind (fun c => c.apiKey)) envVar
  if truthyStr apiKey then
    let k := apiKey.getD ""
    let rc : ResolvedConfig :=
      { apiKey := k
        baseUrl := (jsOrStr (cfg.bind (fun c => c.baseUrl)) (some "https://api.cardsight.ai")).getD ""
        timeout := jsOrNat (cfg.bind (fun c => c.timeout)) 30000
        headers := (cfg.bind (fun c => c.headers)).getD [] }
    .ok { config := rc, baseHeaders := mkBaseHeaders k rc.headers }
  else
    .error authenticationError

/-- The client value produced by construction with apiKey k and timeout 0. -/
def clientK0 : ClientR :=
  { config :=
      { apiKey := "k"
        baseUrl := "https://api.cardsight.ai"
        timeout := 30000
        headers := [] }
    baseHeaders := [("X-API-Key", "k"), ("Content-Type", "application/json")] }

/-- Outcome of reading a non-2xx response body: valid JSON, readable but non-JSON text, or unreadable. -/
inductive BodyRead where
  | jsonBody (j : JsonVal) : BodyRead
  | textBody (t : String) : BodyRead
  | unreadable : BodyRead

/-- A request as seen by the middleware hooks; the signal field holds the id of an attached cancellation timer. -/
structure RequestR where
  url : String
  method : String
  headers : HList
  body : Option String
  signal : Option Nat
deriving DecidableEq

/-- A response as seen by the post-response hook. -/
structure ResponseR where
  url : String
  status : Nat
  body : BodyRead

/-- response.ok of the Fetch standard: status in the 2xx range. -/
def ResponseR.ok (r : ResponseR) : Bool :=
  decide (200 ≤ r.status) && decide (r.status ≤ 299)

/-- The per-request options object, reduced to what the hooks use: its identity and whether its body is FormData. -/
structure FetchOptions where
  key : Nat
  bodyIsFormData : Bool
deriving DecidableEq

/-- Middleware state: per-timer cleanup invocation counts (indexed by timer id) and the WeakMap registry from options identity to timer id. -/
structure MWState where
  timers : List Nat
  registry : List (Nat × Nat)
deriving DecidableEq

/-- WeakMap.set on the registry. -/
def regSet (reg : List (Nat × Nat)) (k tid : Nat) : List (Nat × Nat) :=
  (k, tid) :: reg.filter (fun p => p.1 != k)

/-- WeakMap.delete on the registry. -/
def regDelete (reg : List (Nat × Nat)) (k : Nat) : List (Nat × Nat) :=
  reg.filter (fun p => p.1 != k)

/-- Invoke the cleanup closure of timer tid: one more clearTimeout call recorded against it. -/
def bumpAt (l : List Nat) (i : Nat) : List Nat :=
  l.set i (l.getD i 0 + 1)

/-- The header transformation of the pre-request hook in part_000: set Content-Type to JSON only for non-FormData, non-GET, non-HEAD requests that lack one. -/
def applyHeaders (isFormData : Bool) (method : String) (hs : HList) : HList :=
  if isFormData = false ∧ hhas hs "Content-Type" = false ∧ method ≠ "GET" ∧ method ≠ "HEAD" then
    hset hs "Content-Type" "application/json"
  else
    hs

/-- The pre-request hook (part_000 lines 472 to 501): transform headers, and when the configured timeout is non-zero arm a fresh timer, register its cleanup closure under the options identity, and attach the cancellation signal; a new request value is returned, the input is untouched. -/
def onRequest (timeout : Nat) (opts : FetchOptions) (req : RequestR) (s : MWState) :
    RequestR × MWState :=
  let headers := applyHeaders opts.bodyIsFormData req.method req.headers
  if timeout ≠ 0 then
    let tid := s.timers.length
    ({ req with headers := headers, signal := some tid },
     { timers := s.timers ++ [0], registry := regSet s.registry opts.key tid })
  else
    ({ req with headers := headers }, s)

/-- The generic fallback message of the post-response hook. -/
def genericMessage (status : Nat) : String :=
  "API request failed with status " ++ toString status

/-- Error-message normalisation of the post-response hook: truthy message field of a JSON body, else truthy error field, else non-empty text body, else the generic fallback. -/
def errorMessageFor (status : Nat) (body : BodyRead) : String :=
  match body with
  | .jsonBody j =>
    if jtruthy (jfield j "message") then jstrOf (jfield j "message")
    else if jtruthy (jfield j "error") then jstrOf (jfield j "error")
    else genericMessage status
  | .textBody t => if t != "" then t else genericMessage status
  | .unreadable => genericMessage status

/-- The responseData value carried on the error: set only when the body parsed as JSON. -/
def parsedBody : BodyRead → Option JsonVal
  | .jsonBody j => some j
  | .textBody _ => none
  | .unreadable => none

/-- The CardSightAIError thrown by the post-response hook for a non-ok response: note the url field is taken from the response, the method and headers from the request. -/
def mkHttpError (req : RequestR) (resp : ResponseR) : CardSightAIError :=
  { name := "CardSightAIError"
    message := errorMessageFor resp.status resp.body
    status := some resp.status
    response := parsedBody resp.body
    request := some { url := resp.url, method := req.method, headers := req.headers } }

/-- The post-response hook: invoke and remove the registered cleanup closure first, then either return the response or throw the constructed CardSightAIError. -/
def onResponse (opts : FetchOptions) (req : RequestR) (resp : ResponseR) (s : MWState) :
    Except CardSightAIError ResponseR × MWState :=
  let s1 : MWState :=
    match s.registry.lookup opts.key with
    | some tid => { timers := bumpAt s.timers tid, registry := regDelete s.registry opts.key }
    | none => s
  if resp.ok then (.ok resp, s1) else (.error (mkHttpError req resp), s1)

/-- A detected card, reduced to the fields the utilities inspect. -/
structure DetectedCard where
  id : Option String := none
  setId : Option String := none
  name : Option String := none
deriving DecidableEq

/-- A single detection of utils.ts: a confidence label and the detected card. -/
structure CardDetection where
  confidence : String
  card : DetectedCard
deriving DecidableEq

/-- An identification result, reduced to the fields getHighestConfidenceDetection inspects. -/
structure IdentifyResult where
  success : Bool := true
  detections : Option (List CardDetection) := none
deriving DecidableEq

/-- The confidenceOrder lookup or-else 0 of utils.ts. -/
def confidenceScore (c : String) : Nat :=
  if c = "High" then 3 else if c = "Medium" then 2 else if c = "Low" then 1 else 0

/-- The sort comparator of utils.ts line 19: a sorts no later than b exactly when the score of b is at most the score of a (descending). -/
def detectionLe (a b : CardDetection) : Bool :=
  decide (confidenceScore b.confidence ≤ confidenceScore a.confidence)

/-- Stable insertion into a list sorted by detectionLe: the inserted element goes before the first element it may precede, hence before equals of later original position. -/
def insertDetection (a : CardDetection) : List CardDetection → List CardDetection
  | [] => [a]
  | b :: bs => if detectionLe a b then a :: b :: bs else b :: insertDetection a bs

/-- The stable sort performed by Array.prototype.sort with the comparator of utils.ts, modelled as a stable insertion sort (any stable sort consistent with the comparator yields the same list). -/
def sortDetections : List CardDetection → List CardDetection
  | [] => []
  | d :: rest => insertDetection d (sortDetections rest)

/-- getHighestConfidenceDetection of utils.ts: undefined for an absent or empty list, else the head of a stably sorted copy; the input list itself is not touched, the source sorts a spread copy. -/
def getHighestConfidenceDetection (result : IdentifyResult) : Option CardDetection :=
  match result.detections with
  | none => none
  | some ds =>
    if ds.length = 0 then none
    else (sortDetections ds).head?

/-- Looking up the key just set by regSet yields the timer id just stored. -/
theorem lookup_regSet_self (reg : List (Nat × Nat)) (k tid : Nat) :
    (regSet reg k tid).lookup k = some tid := by
  simp [regSet, List.lookup]

/-- After filtering a key out of the registry, looking it up yields nothing. -/
theorem lookup_filter_self_none (reg : List (Nat × Nat)) (k : Nat) :
    (reg.filter (fun p => p.1 != k)).lookup k = none := by
  induction reg with
  | nil => rfl
  | cons p rest ih =>
    by_cases h : p.1 = k
    · simp [List.filter, h, ih]
    · simp only [List.filter]
      have hne : (p.1 != k) = true := by simp [h]
      rw [hne]
      simp only [List.lookup]
      have : (k == p.1) = false := by simp [Ne.symm h]
      rw [this]
      exact ih

/-- Overwriting the freshly appended slot of a list. -/
theorem set_concat (l : List Nat) (a b : Nat) :
    (l ++ [a]).set l.length b = l ++ [b] := by
  induction l with
  | nil => rfl
  | cons x xs ih => simp [List.set, ih]

/-- Reading the freshly appended slot of a list. -/
theorem getD_concat (l : List Nat) (a : Nat) :
    (l ++ [a]).getD l.length 0 = a := by
  induction l with
  | nil => rfl
  | cons x xs ih =>
    simp only [List.getD] at ih ⊢
    simp only [List.cons_append, List.length_cons, List.getElem?_cons_succ]
    exact ih

/-- Invoking the cleanup closure of a freshly armed timer takes its invocation count from 0 to 1. -/
theorem bump_fresh (l : List Nat) : bumpAt (l ++ [0]) l.length = l ++ [1] := by
  simp [bumpAt, getD_concat, set_concat]

/-- The state left by the post-response hook does not depend on the success branch taken. -/
theorem onResponse_state (opts : FetchOptions) (req : RequestR) (resp : ResponseR) (s : MWState) :
    (onResponse opts req resp s).2 =
      match s.registry.lookup opts.key with
      | some tid => { timers := bumpAt s.timers tid, registry := regDelete s.registry opts.key }
      | none => s := by
  simp only [onResponse]
  split <;> rfl

/-- C1: for every request run through the middleware pair with a non-zero configured
timeout, the cleanup closure registered under the options-object identity at
request-start is invoked exactly once by the post-response hook (its clearTimeout
invocation count ends at exactly 1, on both hook exit paths, since the cleanup
precedes the status check), afterwards the registry holds no entry for that
identity, and a further invocation of the post-response hook for the same
identity leaves the state untouched. The transport driver is external to the
repository; following the boundary contract of the specification it delivers
every completion of a request to the post-response hook. -/
theorem cleanup_runs_exactly_once (timeout : Nat) (opts : FetchOptions) (req : RequestR)
    (resp : ResponseR) (s : MWState) (htimeout : timeout ≠ 0) :
    ((onResponse opts (onRequest timeout opts req s).1 resp
        (onRequest timeout opts req s).2).2.timers.getD s.timers.length 0 = 1) ∧
    ((onResponse opts (onRequest timeout opts req s).1 resp
        (onRequest timeout opts req s).2).2.registry.lookup opts.key = none) ∧
    ((onResponse opts (onRequest timeout opts req s).1 resp
        (onResponse opts (onRequest timeout opts req s).1 resp
          (onRequest timeout opts req s).2).2).2 =
      (onResponse opts (onRequest timeout opts req s).1 resp
        (onRequest timeout opts req s).2).2) := by
  have hreqState : (onRequest timeout opts req s).2 =
      { timers := s.timers ++ [0], registry := regSet s.registry opts.key s.timers.length } := by
    simp [onRequest, htimeout]
  have hstate : (onResponse opts (onRequest timeout opts req s).1 resp
      (onRequest timeout opts req s).2).2 =
      { timers := s.timers ++ [1],
        registry := regDelete (regSet s.registry opts.key s.timers.length) opts.key } := by
    rw [onResponse_state, hreqState]
    simp only [lookup_regSet_self, bump_fresh]
  have hlookupNone : (regDelete (regSet s.registry opts.key s.timers.length) opts.key).lookup
      opts.key = none := by
    simp only [regDelete, regSet]
    have : ((opts.key, s.timers.length) :: s.registry.filter (fun p => p.1 != opts.key)).filter
        (fun p => p.1 != opts.key) = (s.registry.filter (fun p => p.1 != opts.key)).filter
        (fun p => p.1 != opts.key) := by
      simp [List.filter]
    rw [this]
    exact lookup_filter_self_none _ _
  refine ⟨?_, ?_, ?_⟩
  · rw [hstate]
    exact getD_concat s.timers 1
  · rw [hstate]
    exact hlookupNone
  · rw [hstate, onResponse_state]
    simp only [hlookupNone]

/-- Witness for C1 at a concrete request, response and empty initial state. -/
theorem cleanup_runs_exactly_once_witness :
    (30000 ≠ 0) ∧
    (((onResponse ⟨7, false⟩
        (onRequest 30000 ⟨7, false⟩ ⟨"https://api.cardsight.ai/health", "GET", [], none, none⟩
          ⟨[], []⟩).1
        ⟨"https://api.cardsight.ai/health", 200, .textBody ""⟩
        (onRequest 30000 ⟨7, false⟩ ⟨"https://api.cardsight.ai/health", "GET", [], none, none⟩
          ⟨[], []⟩).2).2.timers.getD 0 0 = 1) ∧
      ((onResponse ⟨7, false⟩
        (onRequest 30000 ⟨7, false⟩ ⟨"https://api.cardsight.ai/health", "GET", [], none, none⟩
          ⟨[], []⟩).1
        ⟨"https://api.cardsight.ai/health", 200, .textBody ""⟩
        (onRequest 30000 ⟨7, false⟩ ⟨"https://api.cardsight.ai/health", "GET", [], none, none⟩
          ⟨[], []⟩).2).2.registry.lookup 7 = none) ∧
      ((onResponse ⟨7, false⟩
        (onRequest 30000 ⟨7, false⟩ ⟨"https://api.cardsight.ai/health", "GET", [], none, none⟩
          ⟨[], []⟩).1
        ⟨"https://api.cardsight.ai/health", 200, .textBody ""⟩
        (onResponse ⟨7, false⟩
          (onRequest 30000 ⟨7, false⟩ ⟨"https://api.cardsight.ai/health", "GET", [], none, none⟩
            ⟨[], []⟩).1
          ⟨"https://api.cardsight.ai/health", 200, .textBody ""⟩
          (onRequest 30000 ⟨7, false⟩ ⟨"https://api.cardsight.ai/health", "GET", [], none, none⟩
            ⟨[], []⟩).2).2).2 =
        (onResponse ⟨7, false⟩
          (onRequest 30000 ⟨7, false⟩ ⟨"https://api.cardsight.ai/health", "GET", [], none, none⟩
            ⟨[], []⟩).1
          ⟨"https://api.cardsight.ai/health", 200, .textBody ""⟩
          (onRequest 30000 ⟨7, false⟩ ⟨"https://api.cardsight.ai/health", "GET", [], none, none⟩
            ⟨[], []⟩).2).2)) :=
  ⟨by decide,
   cleanup_runs_exactly_once 30000 ⟨7, false⟩
     ⟨"https://api.cardsight.ai/health", "GET", [], none, none⟩
     ⟨"https://api.cardsight.ai/health", 200, .textBody ""⟩ ⟨[], []⟩ (by decide)⟩

/-- C2 counterexample: a 500 response whose valid JSON body contains a message
field holding the empty string, issued for a request whose url differs from the
final response url. The claim predicts the thrown message equals that message
field (the empty string) and that the error snapshot carries the request url;
the code instead falls through to the generic fallback (because the empty
string is falsy) and snapshots the response url. -/
theorem http_error_counterexample :
    ((onResponse ⟨0, false⟩ ⟨"https://api.cardsight.ai/a", "GET", [], none, none⟩
        ⟨"https://api.cardsight.ai/b", 500, .jsonBody (.obj [("message", .str "")])⟩
        ⟨[], []⟩).1 =
      .error { name := "CardSightAIError"
               message := "API request failed with status 500"
               status := some 500
               response := some (.obj [("message", .str "")])
               request := some ⟨"https://api.cardsight.ai/b", "GET", []⟩ }) ∧
    ("API request failed with status 500" : String) ≠ "" ∧
    ("https://api.cardsight.ai/b" : String) ≠ "https://api.cardsight.ai/a" :=
  ⟨rfl, by decide, by decide⟩

/-- C2 amended: for every response with status in 400 to 599 whose body is valid
JSON, the post-response hook throws a CardSightAIError whose status equals the
response status; the message equals the string conversion of the message field
of the body when that field is truthy, else of the error field when that field
is truthy, else the generic fallback; the error carries the parsed body and a
snapshot holding the response url together with the request method and headers. -/
theorem http_error_fields_amended (opts : FetchOptions) (req : RequestR) (resp : ResponseR)
    (s : MWState) (j : JsonVal) (h4 : 400 ≤ resp.status) (h5 : resp.status ≤ 599)
    (hb : resp.body = .jsonBody j) :
    ∃ e : CardSightAIError,
      (onResponse opts req resp s).1 = .error e ∧
      e.name = "CardSightAIError" ∧
      e.status = some resp.status ∧
      e.response = some j ∧
      e.request = some ⟨resp.url, req.method, req.headers⟩ ∧
      (∀ m, jfield j "message" = some m → vtruthy m = true → e.message = jstr m) ∧
      (jtruthy (jfield j "message") = false →
        ∀ m, jfield j "error" = some m → vtruthy m = true → e.message = jstr m) ∧
      (jtruthy (jfield j "message") = false → jtruthy (jfield j "error") = false →
        e.message = genericMessage resp.status) := by
  have hok : resp.ok = false := by
    simp only [ResponseR.ok, Bool.and_eq_false_imp, decide_eq_true_eq, decide_eq_false_iff_not]
    omega
  refine ⟨mkHttpError req resp, ?_, rfl, rfl, ?_, rfl, ?_, ?_, ?_⟩
  · simp [onResponse, hok]
  · simp [mkHttpError, hb, parsedBody]
  · intro m hm hv
    have hmt : jtruthy (some m) = true := by simp [jtruthy, hv]
    simp [mkHttpError, errorMessageFor, hb, hm, hmt, jstrOf]
  · intro hmf m hm hv
    have het : jtruthy (some m) = true := by simp [jtruthy, hv]
    simp [mkHttpError, errorMessageFor, hb, hmf, hm, het, jstrOf]
  · intro hmf hef
    simp [mkHttpError, errorMessageFor, hb, hmf, hef]

/-- Witness for the amended C2 at a concrete 404 response with a truthy message field. -/
theorem http_error_fields_amended_witness :
    (400 ≤ 404) ∧ (404 ≤ 599) ∧
    (∃ e : CardSightAIError,
      (onResponse ⟨0, false⟩ ⟨"https://api.cardsight.ai/x", "GET", [], none, none⟩
        ⟨"https://api.cardsight.ai/x", 404, .jsonBody (.obj [("message", .str "Not found")])⟩
        ⟨[], []⟩).1 = .error e ∧
      e.name = "CardSightAIError" ∧
      e.status = some 404 ∧
      e.response = some (.obj [("message", .str "Not found")]) ∧
      e.request = some ⟨"https://api.cardsight.ai/x", "GET", []⟩ ∧
      (∀ m, jfield (.obj [("message", .str "Not found")]) "message" = some m →
        vtruthy m = true → e.message = jstr m) ∧
      (jtruthy (jfield (.obj [("message", .str "Not found")]) "message") = false →
        ∀ m, jfield (.obj [("message", .str "Not found")]) "error" = some m →
          vtruthy m = true → e.message = jstr m) ∧
      (jtruthy (jfield (.obj [("message", .str "Not found")]) "message") = false →
        jtruthy (jfield (.obj [("message", .str "Not found")]) "error") = false →
        e.message = genericMessage 404)) :=
  ⟨by decide, by decide,
   http_error_fields_amended ⟨0, false⟩ ⟨"https://api.cardsight.ai/x", "GET", [], none, none⟩
     ⟨"https://api.cardsight.ai/x", 404, .jsonBody (.obj [("message", .str "Not found")])⟩
     ⟨[], []⟩ (.obj [("message", .str "Not found")]) (by decide) (by decide) rfl⟩

/-- C3: whenever neither the explicit apiKey nor the CARDSIGHTAI_API_KEY
environment value is a truthy (present and non-empty) string, the constructor
throws AuthenticationError synchronously and no client value exists, so no
request method is reachable. -/
theorem construction_fails_without_key (cfg : Option CardSightAIConfig) (envVar : Option String)
    (hc : truthyStr (cfg.bind (fun c => c.apiKey)) = false)
    (he : truthyStr envVar = false) :
    mkClient cfg envVar = .error authenticationError ∧
    ∀ c : ClientR, mkClient cfg envVar ≠ .ok c := by
  have hmain : mkClient cfg envVar = .error authenticationError := by
    simp [mkClient, resolveApiKey, jsOrStr, hc, he]
  exact ⟨hmain, fun c hcontra => by rw [hmain] at hcontra; exact Except.noConfusion hcontra⟩

/-- Witness for C3: an explicit empty apiKey together with an empty environment value. -/
theorem construction_fails_without_key_witness :
    (truthyStr ((some { apiKey := some "" } : Option CardSightAIConfig).bind
      (fun c => c.apiKey)) = false) ∧
    (truthyStr (some "") = false) ∧
    (mkClient (some { apiKey := some "" }) (some "") = .error authenticationError ∧
      ∀ c : ClientR, mkClient (some { apiKey := some "" }) (some "") ≠ .ok c) :=
  ⟨by decide, by decide,
   construction_fails_without_key (some { apiKey := some "" }) (some "") (by decide) (by decide)⟩

/-- C4 counterexample: constructing with apiKey k and timeout 0 resolves the
timeout to the default 30000 (0 is falsy under the JS or-else default), and the
pre-request hook then arms a cancellation timer, directly contradicting the
claim that no timer side-effect ever occurs. -/
theorem timeout_zero_counterexample :
    ((mkClient (some { apiKey := some "k", timeout := some 0 }) none).map
      (fun c => c.config.timeout) = .ok 30000) ∧
    ((onRequest 30000 ⟨0, false⟩ ⟨"https://api.cardsight.ai/health", "GET", [], none, none⟩
      ⟨[], []⟩).2.timers.length = 1) :=
  ⟨rfl, rfl⟩

/-- C4 amended: a client constructed with apiKey k and timeout 0 resolves its
timeout to the default 30000, and for every request issued through it the
pre-request hook arms exactly one fresh cancellation timer and attaches its
signal to the returned request. -/
theorem timeout_zero_amended (c : ClientR) (opts : FetchOptions) (req : RequestR) (s : MWState)
    (h : mkClient (some { apiKey := some "k", timeout := some 0 }) none = .ok c) :
    c.config.timeout = 30000 ∧
    (onRequest c.config.timeout opts req s).2.timers.length = s.timers.length + 1 ∧
    (onRequest c.config.timeout opts req s).1.signal = some s.timers.length := by
  have hc : c = clientK0 := by
    have hred : mkClient (some { apiKey := some "k", timeout := some 0 }) none =
        .ok clientK0 := rfl
    rw [hred] at h
    exact (Except.ok.injEq _ _).mp h.symm
  subst hc
  refine ⟨rfl, ?_, ?_⟩
  · simp [onRequest, clientK0]
  · simp [onRequest, clientK0]

/-- Witness for the amended C4 at the concrete constructed client. -/
theorem timeout_zero_amended_witness :
    (mkClient (some { apiKey := some "k", timeout := some 0 }) none = .ok clientK0) ∧
    (clientK0.config.timeout = 30000 ∧
      (onRequest clientK0.config.timeout ⟨0, false⟩
        ⟨"https://api.cardsight.ai/health", "GET", [], none, none⟩
        ⟨[], []⟩).2.timers.length = 0 + 1 ∧
      (onRequest clientK0.config.timeout ⟨0, false⟩
        ⟨"https://api.cardsight.ai/health", "GET", [], none, none⟩
        ⟨[], []⟩).1.signal = some 0) :=
  ⟨rfl,
   timeout_zero_amended clientK0 ⟨0, false⟩
     ⟨"https://api.cardsight.ai/health", "GET", [], none, none⟩ ⟨[], []⟩ rfl⟩

/-- C5: for every request whose options body is a multipart FormData payload,
the pre-request hook leaves the header list exactly as it received it, so in
particular the content-type header (owned by the body encoder, boundary
included) is neither set nor overridden. -/
theorem multipart_preserves_headers (timeout : Nat) (opts : FetchOptions) (req : RequestR)
    (s : MWState) (h : opts.bodyIsFormData = true) :
    (onRequest timeout opts req s).1.headers = req.headers ∧
    hget (onRequest timeout opts req s).1.headers "Content-Type" =
      hget req.headers "Content-Type" := by
  have happ : applyHeaders opts.bodyIsFormData req.method req.headers = req.headers := by
    simp [applyHeaders, h]
  by_cases ht : timeout ≠ 0
  · exact ⟨by simp [onRequest, ht, happ], by simp [onRequest, ht, happ]⟩
  · exact ⟨by simp [onRequest, ht, happ], by simp [onRequest, ht, happ]⟩

/-- Witness for C5 at a concrete multipart request carrying a boundary header. -/
theorem multipart_preserves_headers_witness :
    ((⟨3, true⟩ : FetchOptions).bodyIsFormData = true) ∧
    ((onRequest 30000 ⟨3, true⟩
        ⟨"https://api.cardsight.ai/v1/identify/card", "POST",
          [("content-type", "multipart/form-data; boundary=xyz")], none, none⟩
        ⟨[], []⟩).1.headers =
      [("content-type", "multipart/form-data; boundary=xyz")] ∧
      hget (onRequest 30000 ⟨3, true⟩
        ⟨"https://api.cardsight.ai/v1/identify/card", "POST",
          [("content-type", "multipart/form-data; boundary=xyz")], none, none⟩
        ⟨[], []⟩).1.headers "Content-Type" =
      hget [("content-type", "multipart/form-data; boundary=xyz")] "Content-Type") :=
  ⟨rfl,
   multipart_preserves_headers 30000 ⟨3, true⟩
     ⟨"https://api.cardsight.ai/v1/identify/card", "POST",
       [("content-type", "multipart/form-data; boundary=xyz")], none, none⟩
     ⟨[], []⟩ rfl⟩

/-- Overwriting the entries at one exact key leaves lookups of other keys unchanged. -/
theorem lookup_map_overwrite_ne (l : HList) (k v key : String) (h : key ≠ k) :
    (l.map (fun p => if p.1 == k then (p.1, v) else p)).lookup key = l.lookup key := by
  induction l with
  | nil => rfl
  | cons p rest ih =>
    simp only [List.map]
    by_cases hp : (p.1 == k) = true
    · have hpk : p.1 = k := eq_of_beq hp
      have hk : (key == p.1) = false := by
        rw [hpk]
        exact beq_eq_false_iff_ne.mpr h
      rw [if_pos hp]
      simp only [List.lookup, hk]
      exact ih
    · rw [if_neg hp]
      simp only [List.lookup]
      cases hkp : key == p.1
      · simp only [hkp]
        exact ih
      · simp only [hkp]

/-- Appending a pair under a different key leaves a lookup unchanged. -/
theorem lookup_append_single_ne (l : HList) (k v key : String) (h : key ≠ k) :
    (l ++ [(k, v)]).lookup key = l.lookup key := by
  induction l with
  | nil => simp [List.lookup, beq_eq_false_iff_ne.mpr h]
  | cons p rest ih =>
    simp only [List.cons_append, List.lookup]
    cases hkp : key == p.1 <;> simp [ih]

/-- A key matched by no entry looks up to nothing. -/
theorem any_false_lookup_none (l : HList) (k : String)
    (h : l.any (fun p => p.1 == k) = false) : l.lookup k = none := by
  induction l with
  | nil => rfl
  | cons p rest ih =>
    simp only [List.any_cons, Bool.or_eq_false_iff] at h
    have h1 : (k == p.1) = false := by
      refine beq_eq_false_iff_ne.mpr ?_
      intro he
      rw [he] at h
      simp at h
    simp only [List.lookup, h1]
    exact ih h.2

/-- When the key occurs, overwriting in place makes its lookup the new value. -/
theorem lookup_map_overwrite_self (l : HList) (k v : String)
    (h : l.any (fun p => p.1 == k) = true) :
    (l.map (fun p => if p.1 == k then (p.1, v) else p)).lookup k = some v := by
  induction l with
  | nil => simp at h
  | cons p rest ih =>
    simp only [List.map]
    by_cases hp : (p.1 == k) = true
    · have hpk : p.1 = k := eq_of_beq hp
      rw [if_pos hp]
      simp [List.lookup, hpk]
    · rw [if_neg hp]
      have h2 : rest.any (fun p => p.1 == k) = true := by
        simp only [List.any_cons, hp, Bool.false_or] at h
        exact h
      have hk : (k == p.1) = false := by
        refine beq_eq_false_iff_ne.mpr ?_
        intro he
        rw [he] at hp
        simp at hp
      simp only [List.lookup, hk]
      exact ih h2

/-- If a key is absent from the left list, a lookup passes to the right list. -/
theorem lookup_append_none (l m : HList) (k : String) (h : l.lookup k = none) :
    (l ++ m).lookup k = m.lookup k := by
  induction l with
  | nil => rfl
  | cons p rest ih =>
    simp only [List.lookup] at h
    simp only [List.cons_append, List.lookup]
    cases hkp : k == p.1
    · rw [hkp] at h
      exact ih h
    · rw [hkp] at h
      simp at h

/-- An object-literal key update makes the updated key look up to the new value. -/
theorem lookup_rset_self (l : HList) (k v : String) : (rset l k v).lookup k = some v := by
  unfold rset
  by_cases hany : l.any (fun p => p.1 == k) = true
  · rw [if_pos hany]
    exact lookup_map_overwrite_self l k v hany
  · rw [if_neg hany]
    have hnone : l.lookup k = none :=
      any_false_lookup_none l k (Bool.not_eq_true _ ▸ eq_false_of_ne_true hany)
    rw [lookup_append_none l _ k hnone]
    simp [List.lookup]

/-- An object-literal key update leaves other keys unchanged. -/
theorem lookup_rset_ne (l : HList) (k v key : String) (h : key ≠ k) :
    (rset l k v).lookup key = l.lookup key := by
  unfold rset
  by_cases hany : l.any (fun p => p.1 == k) = true
  · rw [if_pos hany]
    exact lookup_map_overwrite_ne l k v key h
  · rw [if_neg hany]
    exact lookup_append_single_ne l k v key h

/-- Spreading extra entries over a base object never erases a key the base holds. -/
theorem lookup_objSpread_isSome (extra : HList) (base : HList) (key : String)
    (h : (base.lookup key).isSome = true) :
    ((objSpread base extra).lookup key).isSome = true := by
  induction extra generalizing base with
  | nil => exact h
  | cons p rest ih =>
    have hstep : objSpread base (p :: rest) = objSpread (rset base p.1 p.2) rest := rfl
    rw [hstep]
    apply ih
    by_cases hk : key = p.1
    · subst hk
      rw [lookup_rset_self]
      rfl
    · rw [lookup_rset_ne _ _ _ _ hk]
      exact h

/-- Spreading entries that all carry other keys leaves a lookup unchanged. -/
theorem lookup_objSpread_all_ne (extra : HList) (base : HList) (key : String)
    (h : extra.all (fun p => p.1 != key) = true) :
    (objSpread base extra).lookup key = base.lookup key := by
  induction extra generalizing base with
  | nil => rfl
  | cons p rest ih =>
    simp only [List.all_cons, Bool.and_eq_true] at h
    have hne : key ≠ p.1 := by
      have : p.1 ≠ key := by simpa using h.1
      exact this.symm
    have hstep : objSpread base (p :: rest) = objSpread (rset base p.1 p.2) rest := rfl
    rw [hstep, ih _ h.2, lookup_rset_ne _ _ _ _ hne]

/-- C6 counterexample: a caller-supplied extraHeaders entry named exactly
X-API-Key overrides the resolved api key in both observed construction paths,
because the caller headers are spread after the authentication header. -/
theorem auth_header_override_counterexample :
    ((mkBaseHeaders "k" [("X-API-Key", "attacker")]).lookup "X-API-Key" = some "attacker") ∧
    ((mkBaseHeadersV2 "k" [("X-API-Key", "attacker")]).lookup "X-API-Key" = some "attacker") ∧
    (some ("attacker" : String) ≠ some "k") :=
  ⟨rfl, rfl, by decide⟩

/-- C6 amended: in both construction paths the merged base headers always hold
an entry named X-API-Key, and its value is the resolved api key whenever the
caller-supplied extraHeaders contain no entry with that exact name; a caller
entry with that exact name overrides the value instead. -/
theorem auth_header_always_present_amended (k : String) (extra : HList) :
    (((mkBaseHeaders k extra).lookup "X-API-Key").isSome = true) ∧
    (((mkBaseHeadersV2 k extra).lookup "X-API-Key").isSome = true) ∧
    (extra.all (fun p => p.1 != "X-API-Key") = true →
      (mkBaseHeaders k extra).lookup "X-API-Key" = some k ∧
      (mkBaseHeadersV2 k extra).lookup "X-API-Key" = some k) := by
  refine ⟨?_, ?_, fun h => ⟨?_, ?_⟩⟩
  · exact lookup_objSpread_isSome extra _ _ (by simp [List.lookup])
  · exact lookup_objSpread_isSome extra _ _ (by simp [List.lookup])
  · rw [mkBaseHeaders, lookup_objSpread_all_ne extra _ _ h]
    simp [List.lookup]
  · rw [mkBaseHeadersV2, lookup_objSpread_all_ne extra _ _ h]
    simp [List.lookup]

/-- Witness for the amended C6 with a non-conflicting caller header. -/
theorem auth_header_always_present_amended_witness :
    ([("Accept", "text/plain")].all (fun p => p.1 != "X-API-Key") = true) ∧
    ((mkBaseHeaders "k" [("Accept", "text/plain")]).lookup "X-API-Key" = some "k" ∧
      (mkBaseHeadersV2 "k" [("Accept", "text/plain")]).lookup "X-API-Key" = some "k") :=
  ⟨by decide,
   (auth_header_always_present_amended "k" [("Accept", "text/plain")]).2.2 (by decide)⟩

/-- Headers.set always leaves the name present. -/
theorem hhas_hset_self (hs : HList) (n v : String) : hhas (hset hs n v) n = true := by
  induction hs with
  | nil => simp [hset, hhas]
  | cons p rest ih =>
    by_cases hp : hnorm p.1 = hnorm n
    · simp [hset, hp, hhas]
    · simp only [hset, if_neg hp, hhas, List.any_cons]
      simp only [hhas] at ih
      simp [ih]

/-- Setting an absent header name appends the pair at the end. -/
theorem hset_of_not_has (hs : HList) (n v : String) (h : hhas hs n = false) :
    hset hs n v = hs ++ [(n, v)] := by
  induction hs with
  | nil => rfl
  | cons p rest ih =>
    simp only [hhas, List.any_cons, Bool.or_eq_false_iff] at h
    have hp : hnorm p.1 ≠ hnorm n := by
      intro he
      rw [he] at h
      simp at h
    simp only [hset, if_neg hp, List.cons_append]
    rw [ih]
    simp only [hhas]
    exact h.2

/-- Setting an absent header name makes it retrievable with the value just set. -/
theorem hget_hset_fresh (hs : HList) (n v : String) (h : hhas hs n = false) :
    hget (hset hs n v) n = some v := by
  rw [hset_of_not_has hs n v h]
  induction hs with
  | nil => simp [hget, List.find?]
  | cons p rest ih =>
    simp only [hhas, List.any_cons, Bool.or_eq_false_iff] at h
    simp only [List.cons_append, hget, List.find?, h.1]
    exact ih h.2

/-- The header transformation of the pre-request hook is idempotent in general. -/
theorem applyHeaders_idempotent (isFormData : Bool) (method : String) (hs : HList) :
    applyHeaders isFormData method (applyHeaders isFormData method hs) =
      applyHeaders isFormData method hs := by
  unfold applyHeaders
  split
  · next hcond =>
    have hhas2 : hhas (hset hs "Content-Type" "application/json") "Content-Type" = true :=
      hhas_hset_self hs _ _
    simp [hhas2]
  · next hcond =>
    rfl

/-- C7: for every non-multipart request whose method is neither GET nor HEAD
and whose headers lack a content-type, the pre-request hook header
transformation sets content-type to application/json, and applying the
transformation a second time returns the same headers. -/
theorem json_content_type_idempotent (method : String) (hs : HList)
    (h1 : hhas hs "Content-Type" = false) (h2 : method ≠ "GET") (h3 : method ≠ "HEAD") :
    hget (applyHeaders false method hs) "Content-Type" = some "application/json" ∧
    applyHeaders false method (applyHeaders false method hs) =
      applyHeaders false method hs := by
  have hcond : applyHeaders false method hs = hset hs "Content-Type" "application/json" := by
    simp [applyHeaders, h1, h2, h3]
  refine ⟨?_, applyHeaders_idempotent false method hs⟩
  rw [hcond]
  exact hget_hset_fresh hs _ _ h1

/-- Witness for C7 at a concrete POST request without a content-type header. -/
theorem json_content_type_idempotent_witness :
    (hhas [("Accept", "application/json")] "Content-Type" = false) ∧
    (("POST" : String) ≠ "GET") ∧ (("POST" : String) ≠ "HEAD") ∧
    (hget (applyHeaders false "POST" [("Accept", "application/json")]) "Content-Type" =
      some "application/json" ∧
    applyHeaders false "POST" (applyHeaders false "POST" [("Accept", "application/json")]) =
      applyHeaders false "POST" [("Accept", "application/json")]) :=
  ⟨by decide, by decide, by decide,
   json_content_type_idempotent "POST" [("Accept", "application/json")]
     (by decide) (by decide) (by decide)⟩

/-- C8: error normalisation of the post-response hook is total. The hook either
returns the response or throws exactly the constructed CardSightAIError and
nothing else; a malformed-JSON body readable as non-empty text degrades to that
text, an empty or unreadable body degrades to the generic message, which reads
API request failed with status N. -/
theorem error_normalization_total :
    (∀ (opts : FetchOptions) (req : RequestR) (resp : ResponseR) (s : MWState),
      (onResponse opts req resp s).1 = .ok resp ∨
      (onResponse opts req resp s).1 = .error (mkHttpError req resp)) ∧
    (∀ (status : Nat) (t : String), t ≠ "" →
      errorMessageFor status (.textBody t) = t) ∧
    (∀ status : Nat, errorMessageFor status (.textBody "") = genericMessage status) ∧
    (∀ status : Nat, errorMessageFor status .unreadable = genericMessage status) ∧
    (∀ status : Nat, genericMessage status = "API request failed with status " ++ toString status) := by
  refine ⟨fun opts req resp s => ?_, fun status t ht => ?_, fun status => ?_, fun status => rfl,
    fun status => rfl⟩
  · by_cases hok : resp.ok = true
    · left
      simp [onResponse, hok]
    · right
      simp [onResponse, Bool.not_eq_true _ ▸ eq_false_of_ne_true hok]
  · simp [errorMessageFor, ht]
  · simp [errorMessageFor]

/-- Witness for C8 at a 503 response readable only as plain text. -/
theorem error_normalization_total_witness :
    (("Service Unavailable" : String) ≠ "") ∧
    (errorMessageFor 503 (.textBody "Service Unavailable") = "Service Unavailable") :=
  ⟨by decide, error_normalization_total.2.1 503 "Service Unavailable" (by decide)⟩

/-- C9: the pre-request hook returns a new request value that agrees with its
input on url, method and body; only the headers (via the header transformation)
and the attached cancellation signal may differ, and the signal is attached
exactly when the configured timeout is non-zero. The input request value is
never modified: the hook constructs its result from a fresh Headers copy and a
fresh Request value. -/
theorem pre_request_hook_frame (timeout : Nat) (opts : FetchOptions) (req : RequestR)
    (s : MWState) :
    (onRequest timeout opts req s).1.url = req.url ∧
    (onRequest timeout opts req s).1.method = req.method ∧
    (onRequest timeout opts req s).1.body = req.body ∧
    (onRequest timeout opts req s).1.headers =
      applyHeaders opts.bodyIsFormData req.method req.headers ∧
    (onRequest timeout opts req s).1.signal =
      (if timeout ≠ 0 then some s.timers.length else req.signal) := by
  by_cases ht : timeout ≠ 0
  · simp [onRequest, ht]
  · simp [onRequest, ht]

/-- The detection comparator is transitive. -/
theorem detectionLe_trans (a b c : CardDetection) (h1 : detectionLe a b = true)
    (h2 : detectionLe b c = true) : detectionLe a c = true := by
  simp only [detectionLe, decide_eq_true_eq] at h1 h2 ⊢
  omega

/-- The detection comparator is total. -/
theorem detectionLe_total (a b : CardDetection) :
    (detectionLe a b || detectionLe b a) = true := by
  simp only [detectionLe, Bool.or_eq_true, decide_eq_true_eq]
  omega

/-- Stable insertion permutes the element onto the list. -/
theorem insertDetection_perm (a : CardDetection) (l : List CardDetection) :
    (insertDetection a l).Perm (a :: l) := by
  induction l with
  | nil => exact List.Perm.refl _
  | cons b bs ih =>
    by_cases hab : detectionLe a b = true
    · simp [insertDetection, hab]
    · simp only [insertDetection, if_neg hab]
      exact List.Perm.trans (List.Perm.cons b ih) (List.Perm.swap a b bs)

/-- The stable sort is a permutation of its input. -/
theorem sortDetections_perm (l : List CardDetection) : (sortDetections l).Perm l := by
  induction l with
  | nil => exact List.Perm.refl _
  | cons d rest ih =>
    exact List.Perm.trans (insertDetection_perm d (sortDetections rest)) (List.Perm.cons d ih)

/-- Stable insertion preserves sortedness by the detection comparator. -/
theorem insertDetection_sorted (a : CardDetection) (l : List CardDetection)
    (h : List.Pairwise (fun x y => detectionLe x y = true) l) :
    List.Pairwise (fun x y => detectionLe x y = true) (insertDetection a l) := by
  induction l with
  | nil => simp [insertDetection]
  | cons b bs ih =>
    obtain ⟨hb, hbs⟩ := List.pairwise_cons.mp h
    by_cases hab : detectionLe a b = true
    · simp only [insertDetection, if_pos hab]
      refine List.pairwise_cons.mpr ⟨?_, h⟩
      intro y hy
      rcases List.mem_cons.mp hy with hy | hy
      · rw [hy]
        exact hab
      · exact detectionLe_trans a b y hab (hb y hy)
    · simp only [insertDetection, if_neg hab]
      refine List.pairwise_cons.mpr ⟨?_, ih hbs⟩
      intro y hy
      have hmem : y ∈ a :: bs := (insertDetection_perm a bs).mem_iff.mp hy
      rcases List.mem_cons.mp hmem with hy2 | hy2
      · rw [hy2]
        have := detectionLe_total a b
        rcases Bool.or_eq_true_iff.mp this with h2 | h2
        · exact absurd h2 hab
        · exact h2
      · exact hb y hy2

/-- The stable sort produces a list sorted by the detection comparator. -/
theorem sortDetections_sorted (l : List CardDetection) :
    List.Pairwise (fun x y => detectionLe x y = true) (sortDetections l) := by
  induction l with
  | nil => simp [sortDetections]
  | cons d rest ih => exact insertDetection_sorted d (sortDetections rest) ih

/-- C10: getHighestConfidenceDetection returns nothing exactly when the
detections list is absent or empty; otherwise it returns a member of the list
whose confidence rank (High 3, Medium 2, Low 1, anything else 0) is maximal
among all detections. The input list is untouched: the source sorts a spread
copy and the embedding is a pure function of it. -/
theorem highest_confidence_detection_spec (result : IdentifyResult) :
    (getHighestConfidenceDetection result = none ↔
      result.detections = none ∨ result.detections = some []) ∧
    (∀ ds d, result.detections = some ds → getHighestConfidenceDetection result = some d →
      d ∈ ds ∧ ∀ d2 ∈ ds, confidenceScore d2.confidence ≤ confidenceScore d.confidence) := by
  cases hdet : result.detections with
  | none =>
    refine ⟨?_, ?_⟩
    · simp [getHighestConfidenceDetection, hdet]
    · intro ds d h1 h2
      exact Option.noConfusion h1
  | some ds =>
    by_cases hlen : ds.length = 0
    · have hnil : ds = [] := List.length_eq_zero.mp hlen
      subst hnil
      refine ⟨?_, ?_⟩
      · simp [getHighestConfidenceDetection, hdet]
      · intro ds2 d h1 h2
        simp [getHighestConfidenceDetection, hdet] at h2
    · have hne : ds ≠ [] := fun hn => hlen (by rw [hn]; rfl)
      have hmsne : sortDetections ds ≠ [] := by
        intro hn
        have hp := sortDetections_perm ds
        rw [hn] at hp
        exact hne hp.symm.eq_nil
      refine ⟨?_, ?_⟩
      · constructor
        · intro h
          simp only [getHighestConfidenceDetection, hdet, if_neg hlen] at h
          exact absurd (List.head?_eq_none_iff.mp h) hmsne
        · intro h
          rcases h with h | h
          · exact Option.noConfusion h
          · have : ds = [] := by injection h
            exact absurd this hne
      · intro ds2 d h1 h2
        have hds : ds = ds2 := by injection h1
        subst hds
        simp only [getHighestConfidenceDetection, hdet, if_neg hlen] at h2
        cases hms : sortDetections ds with
        | nil => exact absurd hms hmsne
        | cons x tl =>
          rw [hms] at h2
          have hxd : x = d := by
            simp only [List.head?] at h2
            injection h2
          subst hxd
          have hperm := sortDetections_perm ds
          have hsorted := sortDetections_sorted ds
          rw [hms] at hperm hsorted
          refine ⟨hperm.mem_iff.mp (List.mem_cons_self x tl), ?_⟩
          intro d2 hd2
          have hmem : d2 ∈ x :: tl := hperm.mem_iff.mpr hd2
          rcases List.mem_cons.mp hmem with h | h
          · rw [h]
          · have hle := (List.pairwise_cons.mp hsorted).1 d2 h
            simp only [detectionLe, decide_eq_true_eq] at hle
            exact hle

/-- Witness for C10 at a concrete three-detection result whose maximum is the middle element. -/
theorem highest_confidence_detection_spec_witness :
    ((some [⟨"Low", ⟨none, none, none⟩⟩, ⟨"High", ⟨none, none, none⟩⟩,
        ⟨"Medium", ⟨none, none, none⟩⟩] : Option (List CardDetection)) =
      some [⟨"Low", ⟨none, none, none⟩⟩, ⟨"High", ⟨none, none, none⟩⟩,
        ⟨"Medium", ⟨none, none, none⟩⟩]) ∧
    (getHighestConfidenceDetection
      { success := true
        detections := some [⟨"Low", ⟨none, none, none⟩⟩, ⟨"High", ⟨none, none, none⟩⟩,
          ⟨"Medium", ⟨none, none, none⟩⟩] } = some ⟨"High", ⟨none, none, none⟩⟩) ∧
    ((⟨"High", ⟨none, none, none⟩⟩ : CardDetection) ∈
        [⟨"Low", ⟨none, none, none⟩⟩, ⟨"High", ⟨none, none, none⟩⟩,
          ⟨"Medium", ⟨none, none, none⟩⟩] ∧
      ∀ d2 ∈ [(⟨"Low", ⟨none, none, none⟩⟩ : CardDetection), ⟨"High", ⟨none, none, none⟩⟩,
          ⟨"Medium", ⟨none, none, none⟩⟩],
        confidenceScore d2.confidence ≤
          confidenceScore (⟨"High", ⟨none, none, none⟩⟩ : CardDetection).confidence) :=
  ⟨rfl, by decide,
   (highest_confidence_detection_spec
     { success := true
       detections := some [⟨"Low", ⟨none, none, none⟩⟩, ⟨"High", ⟨none, none, none⟩⟩,
         ⟨"Medium", ⟨none, none, none⟩⟩] }).2
     [⟨"Low", ⟨none, none, none⟩⟩, ⟨"High", ⟨none, none, none⟩⟩,
       ⟨"Medium", ⟨none, none, none⟩⟩]
     ⟨"High", ⟨none, none, none⟩⟩ rfl (by decide)⟩

end CardSight
